import Mathlib

/-
Verification of the architecture / calling-convention layer of the omo repository
(src/omo/src/arch.rs) against its natural-language specification.

The file embeds the Rust source shallowly:
- types and functions that appear in src/omo/src/arch.rs keep their source names
  and are translated directly from the source;
- collaborators that the source uses but that are not part of src/
  (crate::cc::CallingConventionCommon, crate::core::Core, crate::errors::EmulatorError,
  the byte-level memory interface) are modelled from the specification; each such
  definition carries a doc comment starting with: Modelled from the spec.
Machine integers are embedded as Nat with explicit mod-2^w where the source
truncates (the `slot as u8` cast, register-width masking).
-/

set_option autoImplicit false

namespace Omo

/-- Byte order, as in the goblin crate's Endian type used by the source. -/
inductive Endian where
| Little : Endian
| Big : Endian
deriving DecidableEq

/-- Engine architecture tag (unicorn Arch); only the MIPS case is used by the source. -/
inductive Arch where
| MIPS : Arch
deriving DecidableEq

/-- unicorn mode flag UC_MODE_32 (bit 2). -/
def MODE_32 : Nat := 4

/-- unicorn mode flag UC_MODE_64 (bit 3). -/
def MODE_64 : Nat := 8

/-- unicorn mode flag UC_MODE_LITTLE_ENDIAN (no bit set). -/
def LITTLE_ENDIAN_FLAG : Nat := 0

/-- unicorn mode flag UC_MODE_BIG_ENDIAN (bit 30). -/
def BIG_ENDIAN_FLAG : Nat := 1073741824

/-- unicorn RegisterMIPS discriminant for the program counter. -/
def RegisterMIPS.PC : Int := 1

/-- unicorn RegisterMIPS discriminant for V0 (general register 2). -/
def RegisterMIPS.V0 : Int := 4

/-- unicorn RegisterMIPS discriminant for A0 (general register 4). -/
def RegisterMIPS.A0 : Int := 6

/-- unicorn RegisterMIPS discriminant for A1 (general register 5). -/
def RegisterMIPS.A1 : Int := 7

/-- unicorn RegisterMIPS discriminant for A2 (general register 6). -/
def RegisterMIPS.A2 : Int := 8

/-- unicorn RegisterMIPS discriminant for A3 (general register 7). -/
def RegisterMIPS.A3 : Int := 9

/-- unicorn RegisterMIPS discriminant for SP (general register 29). -/
def RegisterMIPS.SP : Int := 31

/-- unicorn RegisterMIPS discriminant for RA (general register 31). -/
def RegisterMIPS.RA : Int := 33

/-- Architecture descriptor for the MIPS family, from struct ArchMIPS in arch.rs. -/
structure ArchMIPS where
  mode32 : Bool
  endian : Endian
deriving DecidableEq

/-- Default ArchMIPS value, from impl Default for ArchMIPS: 32-bit, big-endian. -/
def ArchMIPS.default : ArchMIPS := { mode32 := true, endian := Endian.Big }

/-- ArchT::mode for ArchMIPS: MODE_32 or MODE_64 by mode32, or-ed with the endian flag. -/
def ArchMIPS.mode (a : ArchMIPS) : Nat :=
  let m := if a.mode32 then MODE_32 else MODE_64
  match a.endian with
  | Endian.Little => m ||| LITTLE_ENDIAN_FLAG
  | Endian.Big => m ||| BIG_ENDIAN_FLAG

/-- ArchT::pointer_size for ArchMIPS: 4 bytes in 32-bit mode, 8 otherwise. -/
def ArchMIPS.pointer_size (a : ArchMIPS) : Nat := if a.mode32 then 4 else 8

/-- ArchT::pc_reg_id for ArchMIPS. -/
def ArchMIPS.pc_reg_id (_ : ArchMIPS) : Int := RegisterMIPS.PC

/-- ArchT::sp_reg_id for ArchMIPS. -/
def ArchMIPS.sp_reg_id (_ : ArchMIPS) : Int := RegisterMIPS.SP

/-- ArchT::arch for ArchMIPS. -/
def ArchMIPS.arch (_ : ArchMIPS) : Arch := Arch.MIPS

/-- ArchT::endian for ArchMIPS (returns the field). -/
def ArchMIPS.endianOf (a : ArchMIPS) : Endian := a.endian

/-- Modelled from the spec: crate::errors::EmulatorError is not under src/; section 7
gives the error taxonomy InvalidSlot, UnsupportedOperation, UnderlyingAccessFailure. -/
inductive EmulatorError where
| InvalidSlot : EmulatorError
| UnsupportedOperation : EmulatorError
| UnderlyingAccessFailure : EmulatorError
deriving DecidableEq

/-- Modelled from the spec: big-endian fixed-length word packing used by the common
engine (crate::cc and crate::memory are not under src/). -/
def natToBytesBE : Nat → Nat → List Nat
| 0, _ => []
| len + 1, v => natToBytesBE len (v / 256) ++ [v % 256]

/-- Modelled from the spec: little-endian fixed-length word packing. -/
def natToBytesLE : Nat → Nat → List Nat
| 0, _ => []
| len + 1, v => v % 256 :: natToBytesLE len (v / 256)

/-- Modelled from the spec: big-endian word unpacking. -/
def bytesToNatBE (bs : List Nat) : Nat := bs.foldl (fun acc b => acc * 256 + b) 0

/-- Modelled from the spec: little-endian word unpacking. -/
def bytesToNatLE (bs : List Nat) : Nat := bs.foldr (fun b acc => acc * 256 + b) 0

/-- Modelled from the spec: pack a value into a word of len bytes with the given
architecture endianness. -/
def packWord (e : Endian) (len v : Nat) : List Nat :=
  match e with
  | Endian.Big => natToBytesBE len v
  | Endian.Little => natToBytesLE len v

/-- Modelled from the spec: unpack a word respecting architecture endianness. -/
def unpackWord (e : Endian) (bs : List Nat) : Nat :=
  match e with
  | Endian.Big => bytesToNatBE bs
  | Endian.Little => bytesToNatLE bs

/-- Modelled from the spec: crate::cc::CallingConventionCommon is not under src/.
Fields follow the CallingConventionConstants of section 3 (return-register id, ordered
argument-register list, stack-slot count, shadow size in pointer-sized units, pointer
size, return-address-on-stack flag) plus the internal slots-consumed cursor of
section 4.2. -/
structure CallingConventionCommon where
  retreg : Int
  arg_regs : List Int
  args_on_stack : Nat
  shadow : Nat
  ret_addr_on_stack : Bool
  pointer_size : Nat
  cursor : Nat
deriving DecidableEq

/-- Modelled from the spec: CallingConventionCommon::new takes the six ABI constants
(as called in MIPS::new in arch.rs); the slots-consumed cursor starts at zero. -/
def CallingConventionCommon.new (retreg : Int) (arg_regs : List Int) (args_on_stack : Nat)
    (shadow : Nat) (ret_addr_on_stack : Bool) (pointer_size : Nat) :
    CallingConventionCommon :=
  { retreg := retreg, arg_regs := arg_regs, args_on_stack := args_on_stack,
    shadow := shadow, ret_addr_on_stack := ret_addr_on_stack,
    pointer_size := pointer_size, cursor := 0 }

/-- MIPS calling-convention binding data, from struct MipsCC in arch.rs. -/
structure MipsCC where
  inner : CallingConventionCommon
deriving DecidableEq

/-- MipsCC::RET_REG, from arch.rs: RegisterMIPS::V0. -/
def MipsCC.RET_REG : Int := RegisterMIPS.V0

/-- MipsCC::ARG_REGS, from arch.rs: A0, A1, A2, A3 in ABI order. -/
def MipsCC.ARG_REGS : List Int :=
  [RegisterMIPS.A0, RegisterMIPS.A1, RegisterMIPS.A2, RegisterMIPS.A3]

/-- MipsCC::ARG_ON_STACK, from arch.rs. -/
def MipsCC.ARG_ON_STACK : Nat := 12

/-- MipsCC::SHADOW, from arch.rs (in pointer-sized units). -/
def MipsCC.SHADOW : Nat := 4

/-- MipsCC::RET_ADDR_ON_STACK, from arch.rs. -/
def MipsCC.RET_ADDR_ON_STACK : Bool := false

/-- The MIPS binding, from struct MIPS in arch.rs. -/
structure MIPS where
  arch_info : ArchMIPS
  cc : MipsCC
deriving DecidableEq

/-- MIPS::new, from arch.rs: builds the binding with the MipsCC constants and the
descriptor's pointer size. -/
def MIPS.new (arch : ArchMIPS) : MIPS :=
  { arch_info := arch,
    cc := { inner := (CallingConventionCommon.new MipsCC.RET_REG MipsCC.ARG_REGS
        MipsCC.ARG_ON_STACK MipsCC.SHADOW MipsCC.RET_ADDR_ON_STACK arch.pointer_size) } }

/-- MIPS::pointersize, from arch.rs. -/
def MIPS.pointersize (m : MIPS) : Nat := m.arch_info.pointer_size

/-- Modelled from the spec: crate::core::Core is not under src/; section 3 describes the
execution context as a mutable register bank and addressable linear memory owned by the
external engine, with the binding data attached (Core::get_data in the source). -/
structure Core where
  data : MIPS
  regs : Int → Nat
  mem : Nat → Option Nat

/-- Modelled from the spec: register-read of section 6; the fixed MIPS register ids the
source uses are always valid, so the read is total. -/
def Core.reg_read (c : Core) (r : Int) : Nat := c.regs r

/-- Modelled from the spec: register-write of section 6; the engine masks the written
value to the register width of the architecture (the pointer size in bits). -/
def Core.reg_write (c : Core) (r : Int) (v : Nat) : Core :=
  { c with regs := fun x =>
      if x = r then v % 2 ^ (8 * c.data.arch_info.pointer_size) else c.regs x }

/-- Modelled from the spec: memory-read of section 6; reads len bytes starting at addr,
failing when any byte is unmapped. -/
def readBytes (mem : Nat → Option Nat) (addr : Nat) : Nat → Option (List Nat)
| 0 => some []
| len + 1 =>
  match mem addr, readBytes mem (addr + 1) len with
  | some b, some bs => some (b :: bs)
  | _, _ => none

/-- Modelled from the spec: memory-write of section 6; writes the byte list at addr,
failing (and leaving memory unchanged) when any target byte is unmapped. -/
def writeBytes (mem : Nat → Option Nat) (addr : Nat) (bs : List Nat) :
    Option (Nat → Option Nat) :=
  if (List.range bs.length).all (fun i => (mem (addr + i)).isSome) then
    some (fun a =>
      if addr ≤ a ∧ a < addr + bs.length then some (bs.getD (a - addr) 0) else mem a)
  else none

/-- Modelled from the spec: stack-slot address resolution of sections 3 and 4.2:
offset = (slot - register-slot-count) * pointer_size + shadow bytes, plus one
pointer-size adjustment when the call pushes the return address on the stack,
measured from the stack pointer. -/
def CallingConventionCommon.stackSlotAddr (cc : CallingConventionCommon)
    (spv : Nat) (e : Nat) : Nat :=
  spv + (e - cc.arg_regs.length) * cc.pointer_size + cc.shadow * cc.pointer_size +
    (if cc.ret_addr_on_stack then cc.pointer_size else 0)

/-- Modelled from the spec: CallingConventionCommon::get_ram_param (name as called in
arch.rs), section 4.2: the effective slot is the cursor plus the requested slot;
register slots read the ABI argument register; stack slots inside the declared
stack-slot space read a pointer-size word at the resolved offset with the
architecture's endianness; slots beyond the addressable slot space fail with
InvalidSlot; a faulting memory read surfaces as UnderlyingAccessFailure. The
requested width does not change the resolved location. -/
def CallingConventionCommon.get_ram_param (cc : CallingConventionCommon) (c : Core)
    (slot : Nat) (_argbits : Option Nat) : Except EmulatorError Nat :=
  if h : cc.cursor + slot < cc.arg_regs.length then
    Except.ok (c.reg_read (cc.arg_regs.get ⟨cc.cursor + slot, h⟩))
  else if cc.cursor + slot < cc.arg_regs.length + cc.args_on_stack then
    match readBytes c.mem
        (cc.stackSlotAddr (c.reg_read c.data.arch_info.sp_reg_id) (cc.cursor + slot))
        cc.pointer_size with
    | some bs => Except.ok (unpackWord c.data.arch_info.endian bs)
    | none => Except.error EmulatorError.UnderlyingAccessFailure
  else Except.error EmulatorError.InvalidSlot

/-- Modelled from the spec: CallingConventionCommon::set_raw_param, section 4.2:
symmetric write with the same location resolution and failure modes. -/
def CallingConventionCommon.set_raw_param (cc : CallingConventionCommon) (c : Core)
    (slot : Nat) (value : Nat) (_argbits : Option Nat) : Except EmulatorError Core :=
  if h : cc.cursor + slot < cc.arg_regs.length then
    Except.ok (c.reg_write (cc.arg_regs.get ⟨cc.cursor + slot, h⟩) value)
  else if cc.cursor + slot < cc.arg_regs.length + cc.args_on_stack then
    match writeBytes c.mem
        (cc.stackSlotAddr (c.reg_read c.data.arch_info.sp_reg_id) (cc.cursor + slot))
        (packWord c.data.arch_info.endian cc.pointer_size value) with
    | some m => Except.ok { c with mem := m }
    | none => Except.error EmulatorError.UnderlyingAccessFailure
  else Except.error EmulatorError.InvalidSlot

/-- Modelled from the spec: CallingConventionCommon::get_return_value, section 4.2:
reads the designated return register directly, no slot resolution. -/
def CallingConventionCommon.get_return_value (cc : CallingConventionCommon) (c : Core) :
    Except EmulatorError Nat :=
  Except.ok (c.reg_read cc.retreg)

/-- Modelled from the spec: CallingConventionCommon::set_return_value, section 4.2:
writes the designated return register directly, no slot resolution. -/
def CallingConventionCommon.set_return_value (cc : CallingConventionCommon) (c : Core)
    (v : Nat) : Except EmulatorError Core :=
  Except.ok (c.reg_write cc.retreg v)

/-- Modelled from the spec: CallingConventionCommon::reserve, section 4.2: advances the
internal slots-consumed cursor without touching registers or memory; fails when the
advance would exceed the architecture's addressable slot space. -/
def CallingConventionCommon.reserve (cc : CallingConventionCommon) (nslots : Nat) :
    Except EmulatorError CallingConventionCommon :=
  if cc.cursor + nslots ≤ cc.arg_regs.length + cc.args_on_stack then
    Except.ok { cc with cursor := cc.cursor + nslots }
  else Except.error EmulatorError.InvalidSlot

/-- Outcome of a Rust call that can either return a value with the updated core or
diverge (abort) as the unreachable macro does. -/
inductive RustOutcome where
| returns : Except EmulatorError Unit → Core → RustOutcome
| diverges : RustOutcome

/-- CallingConvention::get_num_slots for Core of MIPS, from arch.rs line 185:
the body is the constant 1 and ignores its argument. -/
def Core.get_num_slots (_argbits : Nat) : Nat := 1

/-- CallingConvention::get_raw_param for Core of MIPS, from arch.rs: clones the stored
engine value and delegates with the slot cast to u8 (truncation mod 256). -/
def Core.get_raw_param (c : Core) (slot : Nat) (argbits : Option Nat) :
    Except EmulatorError Nat :=
  CallingConventionCommon.get_ram_param c.data.cc.inner c (slot % 256) argbits

/-- CallingConvention::set_raw_param for Core of MIPS, from arch.rs: clones the stored
engine value and delegates with the slot cast to u8 (truncation mod 256). -/
def Core.set_raw_param (c : Core) (slot : Nat) (value : Nat) (argbits : Option Nat) :
    Except EmulatorError Core :=
  CallingConventionCommon.set_raw_param c.data.cc.inner c (slot % 256) value argbits

/-- CallingConvention::get_return_value for Core of MIPS, from arch.rs. -/
def Core.get_return_value (c : Core) : Except EmulatorError Nat :=
  CallingConventionCommon.get_return_value c.data.cc.inner c

/-- CallingConvention::set_return_value for Core of MIPS, from arch.rs. -/
def Core.set_return_value (c : Core) (v : Nat) : Except EmulatorError Core :=
  CallingConventionCommon.set_return_value c.data.cc.inner c v

/-- CallingConvention::set_return_address for Core of MIPS, from arch.rs line 215:
the body is the unreachable macro, which unconditionally aborts. -/
def Core.set_return_address (_c : Core) (_addr : Nat) : RustOutcome :=
  RustOutcome.diverges

/-- CallingConvention::reserve for Core of MIPS, from arch.rs: clones the stored engine
value, runs the engine reserve on the clone and drops the advanced clone; only the
success or error is propagated while the stored engine (and its cursor) is unchanged. -/
def Core.reserve (c : Core) (nslots : Nat) : Except EmulatorError Core :=
  match CallingConventionCommon.reserve c.data.cc.inner nslots with
  | Except.ok _ => Except.ok c
  | Except.error e => Except.error e

/-- CallingConvention::unwind for Core of MIPS, from arch.rs lines 223-226: ignores
nslots and returns the RA link-register value; the mutable receiver is embedded by
also returning the (unchanged) core. -/
def Core.unwind (c : Core) (_nslots : Nat) : Except EmulatorError (Nat × Core) :=
  Except.ok (c.reg_read RegisterMIPS.RA, c)

/-- Formalisation of the spec sentence on slot counts, for comparison with the source:
slot count = ceil(width_bits / (pointer_size * 8)), minimum 1. -/
def get_num_slots_of_spec (pointer_size width_bits : Nat) : Nat :=
  max 1 ((width_bits + 8 * pointer_size - 1) / (8 * pointer_size))

/-- A core over the default binding with all registers zero and no memory mapped. -/
def core0 : Core :=
  { data := MIPS.new ArchMIPS.default, regs := fun _ => 0, mem := fun _ => none }

/-- A core over the default binding whose first two argument registers hold
distinguishable values (A0 = 10, A1 = 20). -/
def core4 : Core :=
  { data := MIPS.new ArchMIPS.default,
    regs := fun r =>
      if r = RegisterMIPS.A0 then 10 else if r = RegisterMIPS.A1 then 20 else 0,
    mem := fun _ => none }

/-- A core over the default binding with SP = 1000 and the 64 bytes from 1000 mapped
(zero-filled), enough for every declared stack slot. -/
def core6 : Core :=
  { data := MIPS.new ArchMIPS.default,
    regs := fun r => if r = RegisterMIPS.SP then 1000 else 0,
    mem := fun a => if 1000 ≤ a ∧ a < 1064 then some 0 else none }

/-- The core after writing value 7 to slot 5 of core6. -/
def core6after : Core :=
  match Core.set_raw_param core6 5 7 none with
  | Except.ok c => c
  | Except.error _ => core6

theorem natToBytesBE_length (len v : Nat) : (natToBytesBE len v).length = len := by
  induction len generalizing v with
  | zero => rfl
  | succ n ih => simp [natToBytesBE, ih]

theorem natToBytesLE_length (len v : Nat) : (natToBytesLE len v).length = len := by
  induction len generalizing v with
  | zero => rfl
  | succ n ih => simp [natToBytesLE, ih]

theorem packWord_length (e : Endian) (len v : Nat) : (packWord e len v).length = len := by
  cases e <;> simp [packWord, natToBytesBE_length, natToBytesLE_length]

theorem bytesToNatBE_append (xs : List Nat) (b : Nat) :
    bytesToNatBE (xs ++ [b]) = bytesToNatBE xs * 256 + b := by
  simp [bytesToNatBE, List.foldl_append]

theorem bytesToNatBE_natToBytesBE (len v : Nat) :
    bytesToNatBE (natToBytesBE len v) = v % 256 ^ len := by
  induction len generalizing v with
  | zero => simp [natToBytesBE, bytesToNatBE, Nat.mod_one]
  | succ n ih =>
    simp only [natToBytesBE]
    rw [bytesToNatBE_append, ih]
    have h : (256 : Nat) ^ (n + 1) = 256 * 256 ^ n := by ring
    rw [h, Nat.mod_mul]
    ring

theorem bytesToNatLE_cons (b : Nat) (t : List Nat) :
    bytesToNatLE (b :: t) = bytesToNatLE t * 256 + b := rfl

theorem bytesToNatLE_natToBytesLE (len v : Nat) :
    bytesToNatLE (natToBytesLE len v) = v % 256 ^ len := by
  induction len generalizing v with
  | zero => simp [natToBytesLE, bytesToNatLE, Nat.mod_one]
  | succ n ih =>
    simp only [natToBytesLE]
    rw [bytesToNatLE_cons, ih]
    have h : (256 : Nat) ^ (n + 1) = 256 * 256 ^ n := by ring
    rw [h, Nat.mod_mul]
    ring

theorem unpackWord_packWord (e : Endian) (len v : Nat) :
    unpackWord e (packWord e len v) = v % 2 ^ (8 * len) := by
  have h : (2 : Nat) ^ (8 * len) = 256 ^ len := by
    rw [Nat.pow_mul]
  cases e <;>
    simp [packWord, unpackWord, bytesToNatBE_natToBytesBE, bytesToNatLE_natToBytesLE, h]

theorem readBytes_pointwise (mem : Nat → Option Nat) (bs : List Nat) :
    ∀ addr : Nat, (∀ i : Nat, i < bs.length → mem (addr + i) = some (bs.getD i 0)) →
      readBytes mem addr bs.length = some bs := by
  induction bs with
  | nil => intro addr _; rfl
  | cons b t ih =>
    intro addr h
    have h0 : mem addr = some b := by
      have h1 := h 0 (by simp)
      simpa using h1
    have ht : readBytes mem (addr + 1) t.length = some t := by
      apply ih
      intro i hi
      have h2 := h (i + 1) (by simp; omega)
      rw [show addr + (i + 1) = addr + 1 + i by omega] at h2
      simpa using h2
    simp [readBytes, h0, ht]

theorem writeBytes_some (mem : Nat → Option Nat) (addr : Nat) (bs : List Nat)
    (m : Nat → Option Nat) (hw : writeBytes mem addr bs = some m) :
    ∀ i : Nat, i < bs.length → m (addr + i) = some (bs.getD i 0) := by
  intro i hi
  unfold writeBytes at hw
  split at hw
  · injection hw with hw
    subst hw
    have hc : addr ≤ addr + i ∧ addr + i < addr + bs.length := by omega
    show (if addr ≤ addr + i ∧ addr + i < addr + bs.length
        then some (bs.getD (addr + i - addr) 0) else mem (addr + i))
      = some (bs.getD i 0)
    rw [if_pos hc, show addr + i - addr = i by omega]
  · exact Option.noConfusion hw

/-- Claim C1 counterexample: at address 0 on a concrete core, set_return_address on the
MIPS binding diverges (the unreachable macro aborts); it does not return the
UnsupportedOperation error. -/
theorem set_return_address_not_error_at_zero :
    Core.set_return_address core0 0 = RustOutcome.diverges ∧
    RustOutcome.diverges ≠
      RustOutcome.returns (Except.error EmulatorError.UnsupportedOperation) core0 :=
  ⟨rfl, fun h => RustOutcome.noConfusion h⟩

/-- Claim C1 (amended): for every address and every core, set_return_address on the
MIPS binding unconditionally aborts (unreachable); it never returns to the caller, in
particular it never returns the typed UnsupportedOperation error and never silently
succeeds. -/
theorem set_return_address_diverges (c : Core) (addr : Nat) :
    Core.set_return_address c addr = RustOutcome.diverges := rfl

/-- Claim C2 counterexample: at width 64 on the 32-bit binding the source returns 1
slot while the spec formula ceil(64 / 32) with minimum 1 gives 2. -/
theorem get_num_slots_ne_spec_at_64 :
    Core.get_num_slots 64 = 1 ∧ get_num_slots_of_spec 4 64 = 2 ∧
    Core.get_num_slots 64 ≠ get_num_slots_of_spec 4 64 := by
  refine ⟨rfl, by decide, by decide⟩

/-- Claim C2 (amended): get_num_slots on the MIPS binding returns 1 for every
width_bits; it ignores its argument, so it is (trivially) non-decreasing and equals 1
also for widths exceeding pointer_size * 8. -/
theorem get_num_slots_eq_one (width_bits : Nat) : Core.get_num_slots width_bits = 1 :=
  rfl

/-- Claim C3: get_raw_param at slot 1000 on the MIPS binding fails with InvalidSlot for
every register bank, every memory (mapped or not) and every requested width: the u8
truncation sends 1000 to 232, which lies beyond the 16 addressable slots, and the
engine rejects it before any memory access, so the result is independent of memory. -/
theorem get_raw_param_1000_invalid_slot (a : ArchMIPS) (regs : Int → Nat)
    (mem : Nat → Option Nat) (w : Option Nat) :
    Core.get_raw_param { data := MIPS.new a, regs := regs, mem := mem } 1000 w
      = Except.error EmulatorError.InvalidSlot := rfl

/-- Claim C5: unwind on the MIPS binding returns the current RA link-register value,
the result is independent of the slot count argument, and the core (all registers,
including SP, and all memory) is returned unchanged. -/
theorem unwind_returns_ra_pure (c : Core) (n : Nat) :
    Core.unwind c n = Except.ok (Core.reg_read c RegisterMIPS.RA, c) := rfl

/-- Claim C9: the MIPS binding truncates the slot index to 8 bits (the slot as u8
cast), so get_raw_param and set_raw_param at slot s behave exactly as at slot
s mod 256, for every core, value and width. -/
theorem raw_param_slot_mod_256 (c : Core) (s v : Nat) (w : Option Nat) :
    Core.get_raw_param c s w = Core.get_raw_param c (s % 256) w ∧
    Core.set_raw_param c s v w = Core.set_raw_param c (s % 256) v w := by
  have h : s % 256 % 256 = s % 256 := by omega
  constructor
  · simp only [Core.get_raw_param, h]
  · simp only [Core.set_raw_param, h]

/-- Claim C7: the 32-bit MIPS binding supplies exactly the constants of the spec's
scenario: return register V0 accessed directly by get_return_value and
set_return_value with no slot resolution, argument registers A0, A1, A2, A3 in ABI
order, pointer size 4 bytes, a shadow of 4 pointer-sized units (16 bytes), no return
address pushed on the stack, and stack slots 4 and 5 resolving to offsets 16 and 20
from the stack pointer. -/
theorem mips_binding_constants :
    MipsCC.RET_REG = RegisterMIPS.V0 ∧
    MipsCC.ARG_REGS = [RegisterMIPS.A0, RegisterMIPS.A1, RegisterMIPS.A2,
      RegisterMIPS.A3] ∧
    (MIPS.new ArchMIPS.default).cc.inner.retreg = RegisterMIPS.V0 ∧
    (MIPS.new ArchMIPS.default).cc.inner.arg_regs =
      [RegisterMIPS.A0, RegisterMIPS.A1, RegisterMIPS.A2, RegisterMIPS.A3] ∧
    (MIPS.new ArchMIPS.default).arch_info.pointer_size = 4 ∧
    (MIPS.new ArchMIPS.default).cc.inner.shadow = 4 ∧
    (MIPS.new ArchMIPS.default).cc.inner.shadow *
      (MIPS.new ArchMIPS.default).cc.inner.pointer_size = 16 ∧
    (MIPS.new ArchMIPS.default).cc.inner.ret_addr_on_stack = false ∧
    (∀ spv : Nat, (MIPS.new ArchMIPS.default).cc.inner.stackSlotAddr spv 4
      = spv + 16) ∧
    (∀ spv : Nat, (MIPS.new ArchMIPS.default).cc.inner.stackSlotAddr spv 5
      = spv + 20) ∧
    (∀ (a : ArchMIPS) (regs : Int → Nat) (mem : Nat → Option Nat),
      Core.get_return_value { data := MIPS.new a, regs := regs, mem := mem }
        = Except.ok (regs RegisterMIPS.V0)) ∧
    (∀ (a : ArchMIPS) (regs : Int → Nat) (mem : Nat → Option Nat) (v : Nat),
      Core.set_return_value { data := MIPS.new a, regs := regs, mem := mem } v
        = Except.ok (Core.reg_write { data := MIPS.new a, regs := regs, mem := mem }
            RegisterMIPS.V0 v)) := by
  refine ⟨rfl, rfl, rfl, rfl, rfl, rfl, rfl, rfl, ?_, ?_, ?_, ?_⟩
  · intro spv
    simp [CallingConventionCommon.stackSlotAddr, MIPS.new, CallingConventionCommon.new,
      MipsCC.ARG_REGS, MipsCC.SHADOW, MipsCC.RET_ADDR_ON_STACK, ArchMIPS.default,
      ArchMIPS.pointer_size]
  · intro spv
    simp [CallingConventionCommon.stackSlotAddr, MIPS.new, CallingConventionCommon.new,
      MipsCC.ARG_REGS, MipsCC.SHADOW, MipsCC.RET_ADDR_ON_STACK, ArchMIPS.default,
      ArchMIPS.pointer_size]
  · intro a regs mem
    rfl
  · intro a regs mem v
    rfl

/-- Claim C8: the ArchT accessors on ArchMIPS are total pure functions of the
descriptor value (totality and freedom from side effects hold by construction in this
embedding); their values satisfy: endian returns the endian field, pointer_size is 4
in 32-bit mode and 8 otherwise, the PC and SP register ids and the engine arch tag are
the fixed MIPS constants, and the mode flag set contains exactly one of MODE_32 and
MODE_64 (the one matching mode32) together with the big-endian flag exactly when the
descriptor is big-endian. -/
theorem arch_mips_accessors (a : ArchMIPS) :
    ArchMIPS.endianOf a = a.endian ∧
    ArchMIPS.pointer_size a = (if a.mode32 then 4 else 8) ∧
    ArchMIPS.pc_reg_id a = RegisterMIPS.PC ∧
    ArchMIPS.sp_reg_id a = RegisterMIPS.SP ∧
    ArchMIPS.arch a = Arch.MIPS ∧
    ((ArchMIPS.mode a &&& MODE_32 ≠ 0) ↔ a.mode32 = true) ∧
    ((ArchMIPS.mode a &&& MODE_64 ≠ 0) ↔ a.mode32 = false) ∧
    ((ArchMIPS.mode a &&& BIG_ENDIAN_FLAG ≠ 0) ↔ a.endian = Endian.Big) := by
  obtain ⟨m, e⟩ := a
  cases m <;> cases e <;> decide

/-- Claim C4 (the code violates the claim): on a core whose A0 holds 10 and A1 holds
20, reserve(1) succeeds but returns the core with the stored engine (and its cursor)
unchanged, because the binding clones the engine before delegating and drops the
advanced clone; therefore get_raw_param(0) after the reserve still reads A0 (10),
while get_raw_param(1) on a fresh cursor reads A1 (20): the two differ, so the
reserved cursor does not persist as the claim and the spec require. -/
theorem reserve_cursor_discarded :
    Core.reserve core4 1 = Except.ok core4 ∧
    Core.get_raw_param core4 0 none = Except.ok 10 ∧
    Core.get_raw_param core4 1 none = Except.ok 20 ∧
    (10 : Nat) ≠ 20 := by
  refine ⟨rfl, rfl, rfl, by decide⟩

/-- Claim C6: on the MIPS binding, a successful set_raw_param at a valid slot k
followed by get_raw_param at k returns the written value, for register slots (k < 4)
and stack slots (4 <= k < 16) alike, for every value representable in a pointer-size
word. -/
theorem set_then_get_raw_param_roundtrip
    (a : ArchMIPS) (regs : Int → Nat) (mem : Nat → Option Nat)
    (k v : Nat) (w : Option Nat) (c' : Core)
    (hk : k < 16) (hv : v < 2 ^ (8 * a.pointer_size))
    (hset : Core.set_raw_param { data := MIPS.new a, regs := regs, mem := mem } k v w
      = Except.ok c') :
    Core.get_raw_param c' k w = Except.ok v := by
  have hmod : k % 256 = k := Nat.mod_eq_of_lt (by omega)
  unfold Core.set_raw_param CallingConventionCommon.set_raw_param at hset
  simp [hmod, MIPS.new, CallingConventionCommon.new, MipsCC.ARG_REGS,
    MipsCC.ARG_ON_STACK, MipsCC.SHADOW, MipsCC.RET_ADDR_ON_STACK, MipsCC.RET_REG,
    Core.reg_read, ArchMIPS.sp_reg_id] at hset
  by_cases hreg : k < 4
  · rw [dif_pos hreg] at hset
    injection hset with h1
    subst h1
    unfold Core.get_raw_param CallingConventionCommon.get_ram_param
    simp [hmod, MIPS.new, CallingConventionCommon.new, MipsCC.ARG_REGS,
      MipsCC.ARG_ON_STACK, MipsCC.SHADOW, MipsCC.RET_ADDR_ON_STACK, MipsCC.RET_REG,
      Core.reg_write, Core.reg_read, ArchMIPS.sp_reg_id, hreg, Nat.mod_eq_of_lt hv]
  · rw [dif_neg hreg] at hset
    rw [if_pos (show k < 16 by omega)] at hset
    split at hset
    next m heq =>
      injection hset with h1
      subst h1
      unfold Core.get_raw_param CallingConventionCommon.get_ram_param
      simp [hmod, MIPS.new, CallingConventionCommon.new, MipsCC.ARG_REGS,
        MipsCC.ARG_ON_STACK, MipsCC.SHADOW, MipsCC.RET_ADDR_ON_STACK, MipsCC.RET_REG,
        Core.reg_read, ArchMIPS.sp_reg_id]
      rw [dif_neg hreg]
      rw [if_pos (show k < 16 by omega)]
      have hpt := writeBytes_some _ _ _ _ heq
      have hrd := readBytes_pointwise _ _ _ hpt
      rw [packWord_length] at hrd
      rw [hrd]
      simp [unpackWord_packWord, Nat.mod_eq_of_lt hv]
    next heq => exact Except.noConfusion hset

/-- Claim C6 witness: a concrete run at stack slot 5 with value 7 on core6: the write
succeeds and reading the slot back returns 7. -/
theorem set_then_get_raw_param_roundtrip_witness :
    Core.get_raw_param core6after 5 none = Except.ok 7 :=
  set_then_get_raw_param_roundtrip ArchMIPS.default
    (fun r => if r = RegisterMIPS.SP then 1000 else 0)
    (fun a => if 1000 ≤ a ∧ a < 1064 then some 0 else none)
    5 7 none core6after (by omega) (by decide) rfl

/-- Claim C10: the default ArchMIPS descriptor is the 32-bit big-endian variant:
mode32 is set, endian is Big, pointer_size is 4 and mode is MODE_32 or-ed with the
big-endian flag. -/
theorem arch_mips_default_is_32bit_big :
    ArchMIPS.default.mode32 = true ∧ ArchMIPS.default.endian = Endian.Big ∧
    ArchMIPS.endianOf ArchMIPS.default = Endian.Big ∧
    ArchMIPS.pointer_size ArchMIPS.default = 4 ∧
    ArchMIPS.mode ArchMIPS.default = (MODE_32 ||| BIG_ENDIAN_FLAG) := by
  decide

end Omo
